import Mathlib

/-!
Verification development for the portfolio-optimizer web application
(source files: `app.py`, `main.py`, `data_processing.py`, `market_data.py`).

The Python modules are shallowly embedded: pandas DataFrames become explicit
lists of dated columns of optional rationals (an absent cell — NaN — is
`none`), JSON values become an inductive type, Python floats become `ℚ`
(decimal literals are embedded as the exact rationals they denote),
exceptions become `Except`/`Option` results, and the filesystem touched by
the cleanup routine becomes an explicit list of file names together with a
per-file deletion-failure oracle.  Every definition mirrors one Python
function of the repository; line references point into the source files.
The portfolio optimizer and the PDF report generator live in modules that
only the two entry points import; the handlers treat that part of the
pipeline as a sub-computation that either renders a results page or raises,
which is exactly how it is embedded here (`PipelineOutcome`).
-/

set_option maxRecDepth 8000

/-! ### Python string primitives used by the handlers

`str.strip`, `str.upper`, `str.split(',')` and the two regular expressions of
`main.py` are modelled character-by-character.  Python `str.strip()` with no
argument removes leading and trailing whitespace; the handlers only ever meet
ASCII whitespace, modelled by `Char.isWhitespace`.  Python `str.upper()` is
modelled by ASCII case conversion (`Char.toUpper`), which agrees with Python
on the ASCII inputs the validated fields accept. -/

def pyStripList (l : List Char) : List Char :=
  ((l.dropWhile Char.isWhitespace).reverse.dropWhile Char.isWhitespace).reverse

def pyStrip (s : String) : String :=
  ⟨pyStripList s.data⟩

def pyUpper (s : String) : String :=
  ⟨s.data.map Char.toUpper⟩

/-- `str.split(sep)` for a one-character separator: splits on every
occurrence, keeping empty pieces (Python semantics). -/
def pySplitChar (sep : Char) : List Char → List (List Char)
  | [] => [[]]
  | c :: cs =>
      let rest := pySplitChar sep cs
      if c = sep then
        [] :: rest
      else
        match rest with
        | [] => [[c]]
        | p :: ps => (c :: p) :: ps

def pySplit (sep : Char) (s : String) : List String :=
  (pySplitChar sep s.data).map (fun l => ⟨l⟩)

/-- Python `repr` of a list of strings, as interpolated by an f-string:
`['a', 'b']`. -/
def pyReprStrList (l : List String) : String :=
  "[" ++ String.intercalate ", " (l.map (fun s => "\x27" ++ s ++ "\x27")) ++ "]"

/-! ### Exact rational embeddings of the source's decimal literals -/

/-- `0.05` (`market_data.py` lines 23 and 26). -/
def ratePointZeroFive : ℚ := ⟨1, 20, by decide, by decide⟩

/-- `0.30`, the outlier threshold (`data_processing.py` line 116). -/
def threshold30 : ℚ := ⟨3, 10, by decide, by decide⟩

/-- `-0.1`, lower bound of the accepted risk-free-rate range (`main.py` line 144). -/
def negPointOne : ℚ := ⟨-1, 10, by decide, by decide⟩

/-- `0.5`, upper bound of the accepted risk-free-rate range (`main.py` line 144). -/
def pointFive : ℚ := ⟨1, 2, by decide, by decide⟩

/-! ### `market_data.py` — `MarketData.get_risk_free_rate` (lines 18–26)

The outcome of `requests.get(API_URL)` followed by `response.json()` is the
input: `.error ()` when either the HTTP request or the JSON parse raises,
`.ok v` when a JSON value was parsed.  Python `dict.get(k, default)` on a
parsed JSON object is field lookup; calling `.get` on a non-object raises an
`AttributeError`, which the surrounding `except Exception` turns into the
default `0.05`. -/

inductive Json where
  | null : Json
  | bool (b : Bool) : Json
  | num (q : ℚ) : Json
  | str (s : String) : Json
  | arr (items : List Json) : Json
  | obj (fields : List (String × Json)) : Json
deriving Repr

/-- Field lookup in a parsed JSON object (keys are distinct after parsing). -/
def Json.lookupField (k : String) : List (String × Json) → Option Json
  | [] => none
  | (k2, v) :: rest => if k2 = k then some v else Json.lookupField k rest

namespace MarketData

/-- Default returned on any failure: `0.05` ("Default 0.05 si falla"). -/
def defaultRate : Json := .num ratePointZeroFive

/-- `market_data.py` lines 19–26.  `data.get("rates", {}).get("MXN", 0.05)`:
if the body is not an object, or the `rates` entry is not an object, the
second `.get` raises and the `except` clause returns `0.05`; a missing key
falls back to the `.get` default, ending at `0.05` as well. -/
def get_risk_free_rate (resp : Except Unit Json) : Json :=
  match resp with
  | .error _ => defaultRate
  | .ok data =>
      match data with
      | .obj fields =>
          match Json.lookupField "rates" fields with
          | some (.obj rates) =>
              match Json.lookupField "MXN" rates with
              | some v => v
              | none => .num ratePointZeroFive
          | some _ => defaultRate      -- `.get("MXN", …)` on a non-dict raises
          | none => .num ratePointZeroFive  -- `\x7b\x7d.get("MXN", 0.05)`
      | _ => defaultRate               -- `.get` on a non-dict raises

/-- A well-formed exchange-rate body carrying `rates.MXN = v`. -/
def mxnResponse (v : ℚ) : Except Unit Json :=
  .ok (.obj [("rates", .obj [("MXN", .num v)])])

end MarketData

/-! ### `data_processing.py` — frames

A pandas DataFrame of prices is a date index plus one column of optional
rationals per ticker (`none` is NaN).  `df.empty` is true when either axis
is empty. -/

structure Date where
  year : Nat
  month : Nat
  day : Nat
deriving DecidableEq, Repr

def pad2 (n : Nat) : String :=
  if n < 10 then "0" ++ toString n else toString n

def pad4 (n : Nat) : String :=
  if n < 10 then "000" ++ toString n
  else if n < 100 then "00" ++ toString n
  else if n < 1000 then "0" ++ toString n
  else toString n

/-- `index.strftime("%Y-%m-%d")` on one timestamp. -/
def Date.fmt (d : Date) : String :=
  pad4 d.year ++ "-" ++ pad2 d.month ++ "-" ++ pad2 d.day

structure Frame where
  dates : List Date
  cols : List (String × List (Option ℚ))
deriving DecidableEq, Repr

def Frame.isEmpty (f : Frame) : Bool :=
  f.dates.isEmpty || f.cols.isEmpty

def emptyFrame : Frame := ⟨[], []⟩

/-- `df.pct_change()` on one column, with the historical default
`fill_method="pad"`: the series is forward-filled, the change at a position
is `(cur - prev) / prev` for the filled values, and positions before the
first observation stay NaN.  (Prices are positive in every price table —
spec data model — so the division is never by zero.) -/
def pctChangeGo (prev : Option ℚ) : List (Option ℚ) → List (Option ℚ)
  | [] => []
  | c :: cs =>
      let cur := match c with
        | some v => some v
        | none => prev
      let out := match prev, cur with
        | some p, some q => some ((q - p) / p)
        | _, _ => none
      out :: pctChangeGo cur cs

def pctChange (cells : List (Option ℚ)) : List (Option ℚ) :=
  pctChangeGo none cells

/-- One cell of `returns[(returns.abs() > threshold)]` (line 117): kept when
the absolute change strictly exceeds `0.30`, NaN otherwise. -/
def largeChangeCell (r : Option ℚ) : Option ℚ :=
  match r with
  | some v => if threshold30 < |v| then some v else none
  | none => none

/-- The index of `large_changes[col].dropna()` (lines 120–122): the dates at
which the column's day-over-day change strictly exceeds 30% in absolute
value. -/
def colLargeChanges (dates : List Date) (cells : List (Option ℚ)) : List Date :=
  (dates.zip (pctChange cells)).filterMap (fun dc =>
    match largeChangeCell dc.2 with
    | some _ => some dc.1
    | none => none)

/-- Line 123–124.  `{threshold:.0%}` with `threshold = 0.30` renders `30%`;
`{change_dates[:5]}` interpolates the Python `repr` of the first five dates,
and `"..."` is appended when more than five exist. -/
def outlierMsg (col : String) (change_dates : List String) : String :=
  "Data Quality Warning: Ticker \x27" ++ col ++
    "\x27 has large daily changes (> 30%) on dates: " ++
    pyReprStrList (change_dates.take 5) ++
    (if 5 < change_dates.length then "..." else "")

/-- Check 2 of `perform_data_quality_checks` (lines 114–126).  The guard
`if not large_changes.isnull().all().all()` skips the loop when every masked
column is all-NaN; inside, one message is appended per column whose masked
series is non-empty after `dropna`. -/
def check2Issues (f : Frame) : List String :=
  let offending := f.cols.map (fun c => (c.1, colLargeChanges f.dates c.2))
  if offending.all (fun c => c.2.isEmpty) then []
  else offending.filterMap (fun c =>
    if c.2.isEmpty then none
    else some (outlierMsg c.1 (c.2.map Date.fmt)))

/-- `{na_percentage:.1f}`: the percentage rendered with one decimal place
(round half to even, on the exact rational value). -/
def format1f (q : ℚ) : String :=
  let x := q * 10
  let fl := ⌊x⌋
  let t := if x - fl < ⟨1, 2, by decide, by decide⟩ then fl
    else if (⟨1, 2, by decide, by decide⟩ : ℚ) < x - fl then fl + 1
    else if fl % 2 = 0 then fl else fl + 1
  let n := t.toNat
  toString (n / 10) ++ "." ++ toString (n % 10)

/-- Check 1 (lines 103–112): per column, the share of absent cells before
cleaning; a message when it exceeds 50%. -/
def check1Issues (f : Frame) : List String :=
  let total := f.dates.length
  if 0 < total then
    f.cols.filterMap (fun c =>
      let naCount := (c.2.filter Option.isNone).length
      let pct : ℚ := (naCount : ℚ) / (total : ℚ) * 100
      if 50 < pct then
        some ("Data Quality Warning: Ticker \x27" ++ c.1 ++ "\x27 has " ++
          format1f pct ++ "% missing values before cleaning.")
      else none)
  else []

/-- Check 3 (lines 129–136): one message listing every column with a present
cell ≤ 0 (`NaN <= 0` is false in pandas, so absent cells do not count). -/
def check3Issues (f : Frame) : List String :=
  let bad := f.cols.filter (fun c => c.2.any (fun cell =>
    match cell with
    | some v => v ≤ 0
    | none => false))
  if bad.isEmpty then []
  else ["Data Quality Warning: Tickers " ++ pyReprStrList (bad.map Prod.fst) ++
        " have zero or negative prices."]

/-- `perform_data_quality_checks` (lines 93–145): returns the frame
unmodified (the clipping at lines 134–136 is commented out in the source)
together with the accumulated issue list. -/
def perform_data_quality_checks (df : Frame) : Frame × List String :=
  if df.isEmpty then (df, ["Input DataFrame is empty."])
  else (df, check1Issues df ++ check2Issues df ++ check3Issues df)

/-- Row `i` has no absent value in any column (the rows `dropna(how="any")`
keeps). -/
def rowComplete (f : Frame) (i : Nat) : Bool :=
  f.cols.all (fun c => (c.2.getD i none).isSome)

/-- `df.dropna(how="any")` (line 163): keep exactly the index positions whose
row is complete across all columns. -/
def dropnaAny (f : Frame) : Frame :=
  let good := (List.range f.dates.length).filter (rowComplete f)
  ⟨good.filterMap (fun i => f.dates.get? i),
   f.cols.map (fun c => (c.1, good.filterMap (fun i => c.2.get? i)))⟩

def msgNoValidRows : String :=
  "No valid, complete data rows remaining after cleaning. Cannot proceed with optimization."

/-- `procesar_datos` (lines 148–178).  `None` or empty input returns a fresh
empty DataFrame; otherwise quality checks run (returning the data
unchanged), rows with any NaN are dropped, and a `ValueError` is raised when
the cleaned frame is empty although the input had rows. -/
def procesar_datos (data : Option Frame) : Except String Frame :=
  match data with
  | none => .ok emptyFrame
  | some d =>
      if d.isEmpty then .ok emptyFrame
      else
        let data_checked := (perform_data_quality_checks d).1
        let data_cleaned := dropnaAny data_checked
        if data_cleaned.isEmpty ∧ 0 < data_checked.dates.length then
          .error msgNoValidRows
        else .ok data_cleaned

/-! ### `data_processing.py` — `extraer_datos` (lines 24–90)

Only the *shape* of the downloaded DataFrame decides the control flow of
`extraer_datos`, so the provider's response is embedded as a column
structure (two-level `(ticker, field)` columns or flat single-level names)
plus a row count.  The download itself (`yf.download`, line 33) may raise;
`.error ()` feeds that case.  Inside the body, the `KeyError` of the
`IndexSlice` selection is caught locally (lines 45–47), while the pandas
`ValueError` of a mismatched column-rename (assigning a name list of the
wrong length) propagates to the outer handler (lines 87–90), which converts
every exception into an empty DataFrame. -/

inductive Tickers where
  | list (l : List String)
  | str (s : String)

inductive RawCols where
  | multi (pairs : List (String × String))
  | flat (names : List String)
deriving DecidableEq, Repr

structure RawDF where
  cols : RawCols
  nrows : Nat
deriving DecidableEq, Repr

def RawCols.count : RawCols → Nat
  | .multi p => p.length
  | .flat n => n.length

def RawDF.isEmpty (d : RawDF) : Bool :=
  d.nrows = 0 || d.cols.count = 0

def emptyRawDF : RawDF := ⟨.flat [], 0⟩

/-- `data_close.columns.levels[0]`: the sorted distinct level-0 labels of the
original MultiIndex (selection does not prune levels in pandas). -/
def levels0 (pairs : List (String × String)) : List String :=
  List.insertionSort (· ≤ ·) (pairs.map Prod.fst).dedup

/-- Lines 60–76, shared by the one-element-list and bare-string branches:
`if "Close" in data.columns: data = data[["Close"]]; data.columns = [t]`.
Membership in a two-level column index tests the first level; the rename
assigns a length-1 name list, raising when the selection has a different
width. -/
def selectCloseSingle (t : String) (raw : RawDF) : Except Unit RawDF :=
  match raw.cols with
  | .flat names =>
      if names.contains "Close" then
        if names.count "Close" = 1 then .ok ⟨.flat [t], raw.nrows⟩
        else .error ()
      else .ok raw                -- warning logged, data left unchanged
  | .multi pairs =>
      if (pairs.map Prod.fst).contains "Close" then
        if (pairs.filter (fun p => p.1 = "Close")).length = 1 then
          .ok ⟨.flat [t], raw.nrows⟩
        else .error ()
      else .ok raw

/-- The structure-handling block of `extraer_datos` (lines 35–85), with
internal pandas exceptions surfaced as `.error ()`. -/
def extraer_datos_body (tickers : Tickers) (raw : RawDF) : Except Unit RawDF :=
  match tickers with
  | .list l =>
      if 1 < l.length then
        match raw.cols with
        | .multi pairs =>
            let closeCols := pairs.filter (fun p => p.2 = "Close")
            if closeCols.isEmpty then
              .ok raw             -- KeyError caught at line 45: data unchanged
            else
              let names := levels0 pairs
              if names.length = closeCols.length then
                .ok ⟨.flat names, raw.nrows⟩
              else .error ()      -- rename length mismatch
        | .flat names =>
            if raw.isEmpty then .ok raw
            else
              let fetched := l.filter (fun t => names.contains t)
              if fetched.isEmpty then .ok emptyRawDF   -- line 56
              else .ok ⟨.flat fetched, raw.nrows⟩      -- line 57
      else if l.length = 1 then
        selectCloseSingle (l.headD "") raw
      else .ok raw                -- empty ticker list: no branch applies
  | .str t => selectCloseSingle t raw

/-- `extraer_datos` (lines 24–90): the download outcome feeds the body, and
the outer `except Exception` (lines 87–90) converts any raised exception
into an empty DataFrame. -/
def extraer_datos (tickers : Tickers) (fetch : Except Unit RawDF) : RawDF :=
  match fetch with
  | .error _ => emptyRawDF
  | .ok raw =>
      match extraer_datos_body tickers raw with
      | .ok d => d
      | .error _ => emptyRawDF

/-- "No requested ticker produced any data at all": the download raised, or
it returned an empty frame, or (multi-ticker, flat columns) none of the
requested tickers is among the returned columns. -/
def noTickerData (tickers : Tickers) (fetch : Except Unit RawDF) : Prop :=
  fetch = .error () ∨
  (∃ raw, fetch = .ok raw ∧ raw.isEmpty = true) ∨
  (∃ l names nrows, tickers = .list l ∧ 1 < l.length ∧
    fetch = .ok ⟨.flat names, nrows⟩ ∧ ∀ t ∈ l, names.contains t = false)

/-! ### `main.py` — `cleanup_static_files` (lines 43–68)

The static folder is a duplicate-free list of file names; `glob.glob`
becomes a filter by a glob pattern (`*`, `?`, literals; names starting with
a dot are only matched by patterns starting with a dot).  `os.remove` may
fail on individual files, modelled by the oracle `fails`; a failed deletion
is logged and skipped (lines 63–64).  The function returns the remaining
folder contents and `files_deleted_count`. -/

def globMatchL : List Char → List Char → Bool
  | [], cs => cs.isEmpty
  | '*' :: ps, cs => cs.tails.any (fun suf => globMatchL ps suf)
  | _ :: _, [] => false
  | p :: ps, c :: cs => (p = '?' || p = c) && globMatchL ps cs

def startsWithDot : List Char → Bool
  | '.' :: _ => true
  | _ => false

def globMatches (pat : String) (name : String) : Bool :=
  (!(startsWithDot name.data) || startsWithDot pat.data) && globMatchL pat.data name.data

/-- The inner loop over `files_to_delete` (lines 58–64). -/
def removeBatch (fails : String → Bool) : List String → List String × Nat → List String × Nat
  | [], st => st
  | f :: rest, (files, cnt) =>
      if fails f then removeBatch fails rest (files, cnt)
      else removeBatch fails rest (files.erase f, cnt + 1)

def cleanup_static_files (folder : List String) (patterns : List String)
    (fails : String → Bool) : List String × Nat :=
  patterns.foldl (fun st pat =>
    let files_to_delete := st.1.filter (globMatches pat)
    if files_to_delete.isEmpty then st
    else removeBatch fails files_to_delete st) (folder, 0)

def matchesAnyPattern (patterns : List String) (f : String) : Bool :=
  patterns.any (fun p => globMatches p f)

/-- A file the cleanup succeeds in deleting: it matches some pattern and its
deletion does not fail. -/
def deletable (patterns : List String) (fails : String → Bool) (f : String) : Bool :=
  matchesAnyPattern patterns f && !(fails f)

/-! ### `main.py` — the hardened `/optimize` handler (lines 100–208)

Form fields are `Option String` (`none` = absent).  The two numeric fields
are embedded as the outcome of `float(...)`: `none` for a missing key
(`KeyError`), `some none` for a present but unparseable value
(`ValueError`), `some (some q)` for a parsed number.  The pipeline behind a
valid submission (price fetch, cleaning, optimization, report and chart
generation, lines 154–201) either renders the results page or raises, which
`PipelineOutcome` captures; `pipelineRan` records whether the handler
reached it. -/

def tickerCharOk (c : Char) : Bool :=
  ('A' ≤ c && c ≤ 'Z') || c = ',' || c = '.' || c = '^' || c = ' '

/-- `re.match(r"^[A-Z,.^ ]+$", tickers_str.upper())` (line 116); the
argument is already stripped, so the `$`-before-final-newline subtlety
cannot arise. -/
def tickersRegexOk (s : String) : Bool :=
  let u := s.data.map Char.toUpper
  !u.isEmpty && u.all tickerCharOk

/-- Line 118: `[t.strip().upper() for t in tickers_str.split(",") if t.strip()]`. -/
def splitTickers (s : String) : List String :=
  (pySplit ',' s).filterMap (fun t =>
    let st := pyStrip t
    if st = "" then none else some (pyUpper st))

def msgTickersRequired : String := "Tickers field is required."

def msgTickersInvalidChars : String :=
  "Invalid characters found in Tickers field. Use only letters, commas, spaces, and ^."

def msgTickersEmptyAfter : String := "Tickers field cannot be empty after processing."

def msgMontoPositive : String := "Investment Amount must be positive."

def msgMontoInvalid : String := "Invalid or missing Investment Amount."

def msgMonedaRequired : String := "Investment Currency is required."

def msgMonedaFormat : String := "Invalid Investment Currency format (should be 3 letters like USD)."

def msgIndiceRequired : String := "Reference Index selection is required."

def msgObjetivoRequired : String := "Optimization Objective selection is required."

def msgRateRange : String :=
  "Risk-Free Rate seems outside a reasonable range (-10% to 50%). Input as decimal (e.g., 0.04)."

def msgRateInvalid : String := "Invalid or missing Risk-Free Rate."

/-- Lines 113–120.  At line 119 `error_messages` can only hold messages from
the two preceding ticker checks, so `not tickers and not error_messages`
fires exactly when the stripped string is non-empty, matches the character
class, and still yields no ticker after splitting. -/
def tickersErrs (raw : String) : List String :=
  let s := pyStrip raw
  if s = "" then [msgTickersRequired]
  else if !(tickersRegexOk s) then [msgTickersInvalidChars]
  else if splitTickers s = [] then [msgTickersEmptyAfter]
  else []

/-- Lines 123–128: `float(request.form["monto_inversion"])` with
`ValueError`/`KeyError` collapsed to one message. -/
def montoErrs (field : Option (Option ℚ)) : List String :=
  match field with
  | some (some v) => if v ≤ 0 then [msgMontoPositive] else []
  | _ => [msgMontoInvalid]

def monedaFormatOk (v : String) : Bool :=
  v.length = 3 && v.data.all (fun c => 'A' ≤ c && c ≤ 'Z')

/-- Lines 130–134. -/
def monedaErrs (field : Option String) : List String :=
  let v := pyUpper (pyStrip (field.getD ""))
  if v = "" then [msgMonedaRequired]
  else if !(monedaFormatOk v) then [msgMonedaFormat]
  else []

/-- Lines 136–137: `if not indice` — `None` and `""` are both falsy. -/
def indiceErrs (field : Option String) : List String :=
  match field with
  | none => [msgIndiceRequired]
  | some v => if v = "" then [msgIndiceRequired] else []

/-- Lines 139–140. -/
def objetivoErrs (field : Option String) : List String :=
  match field with
  | none => [msgObjetivoRequired]
  | some v => if v = "" then [msgObjetivoRequired] else []

/-- The risk-free-rate range `-0.1 <= r < 0.5` of line 144. -/
def riskRateInRange (r : ℚ) : Prop :=
  negPointOne ≤ r ∧ r < pointFive

instance (r : ℚ) : Decidable (riskRateInRange r) := by
  unfold riskRateInRange; infer_instance

/-- Lines 142–147. -/
def rateErrs (field : Option (Option ℚ)) : List String :=
  match field with
  | some (some v) => if ¬ riskRateInRange v then [msgRateRange] else []
  | _ => [msgRateInvalid]

structure MainForm where
  tickers : Option String
  monto_inversion : Option (Option ℚ)
  moneda_usuario : Option String
  indice : Option String
  objetivo : Option String
  risk_free_rate : Option (Option ℚ)

/-- Lines 109–147: the six field validations run unconditionally, appending
their violations to one shared list in source order. -/
def validate (f : MainForm) : List String :=
  tickersErrs (f.tickers.getD "") ++
  montoErrs f.monto_inversion ++
  monedaErrs f.moneda_usuario ++
  indiceErrs f.indice ++
  objetivoErrs f.objetivo ++
  rateErrs f.risk_free_rate

inductive View where
  | errorPage (error_message : String)
  | resultsPage
deriving DecidableEq, Repr

/-- What the post-validation pipeline (lines 154–201) does: renders the
results page, raises a `ValueError` (its own two `raise` statements or any
`ValueError` escaping a stage), or raises any other exception. -/
inductive PipelineOutcome where
  | ok
  | valueError (msg : String)
  | otherExc (msg : String)

structure HttpResponse where
  view : View
  status : Nat
  pipelineRan : Bool
deriving DecidableEq, Repr

/-- Line 151: the validation-failure page body. -/
def errorHtmlList (msgs : List String) : String :=
  "Input validation failed:<ul><li>" ++ String.intercalate "</li><li>" msgs ++ "</li></ul>"

/-- Line 208: the fixed message of the generic 500 handler. -/
def genericServerError : String :=
  "An unexpected server error occurred. Please check the logs or contact support."

/-- The `/optimize` handler of `main.py` (lines 100–208) after the initial
cleanup call: accumulate validation errors; on any violation return the
error view with status 400 without touching the pipeline (lines 149–151);
otherwise run the pipeline and classify its exceptions — `ValueError` to a
400 error view carrying `str(ve)` (lines 203–205), anything else to a 500
error view carrying the fixed generic message (lines 206–208). -/
def mainOptimize (form : MainForm) (pipeline : PipelineOutcome) : HttpResponse :=
  let error_messages := validate form
  if error_messages.isEmpty then
    match pipeline with
    | .ok => ⟨.resultsPage, 200, true⟩
    | .valueError m => ⟨.errorPage m, 400, true⟩
    | .otherExc _m => ⟨.errorPage genericServerError, 500, true⟩
  else ⟨.errorPage (errorHtmlList (validate form)), 400, false⟩

/-! ### `app.py` — the basic `/optimize` handler (lines 48–113)

Lines 52–58 bind the request fields: `tickers` split and uppercased,
`monto_inversion` through `float(...)`, `moneda_usuario` **uppercased**,
`indice` and `objetivo` read as-is.  A missing key (`KeyError`) or a failed
parse (`ValueError`) is caught by the blanket handler at line 110 (error
view, HTTP 500).  The same three locals `moneda_usuario`, `indice`,
`objetivo` are then passed to `generar_reporte_pdf` (line 90) and to the
results template (lines 100–108), so one record captures what both
receive. -/

structure BasicForm where
  tickers : Option String
  monto_inversion : Option (Option ℚ)
  moneda_usuario : Option String
  indice : Option String
  objetivo : Option String

structure BasicArgs where
  moneda : String
  indice : String
  objetivo : String
deriving DecidableEq, Repr

def basicHandlerArgs (f : BasicForm) : Option BasicArgs :=
  match f.tickers, f.monto_inversion, f.moneda_usuario, f.indice, f.objetivo with
  | some _, some (some _), some m, some i, some o => some ⟨pyUpper m, i, o⟩
  | _, _, _, _, _ => none

/-! ### Concrete inputs used by witnesses and counterexamples -/

def digitChars : List Char := ['0', '1', '2', '3', '4', '5', '6', '7', '8', '9']

/-- A submission violating several fields at once: empty tickers, negative
amount, lowercase too-short currency, missing index, empty objective,
out-of-range rate. -/
def badForm : MainForm :=
  ⟨some "", some (some (-5)), some "eu", none, some "", some (some 2)⟩

/-- A fully valid submission (risk-free rate `0.04`). -/
def goodForm : MainForm :=
  ⟨some "AAPL, MSFT", some (some 10000), some "USD", some "S&P 500",
   some "Índice Sharpe", some (some ⟨1, 25, by decide, by decide⟩)⟩

/-- A valid submission except that the tickers value contains a digit. -/
def digitForm : MainForm :=
  ⟨some "A1", some (some 1000), some "USD", some "S&P 500",
   some "Índice Sharpe", some (some 0)⟩

def dJan1 : Date := ⟨2020, 1, 1⟩

def dJan2 : Date := ⟨2020, 1, 2⟩

/-- Two tickers, with a single gap in one ticker on the second date. -/
def gapFrame : Frame :=
  ⟨[dJan1, dJan2], [("AAPL", [some 1, none]), ("MSFT", [some 2, some 3])]⟩

/-- One ticker whose only row is absent. -/
def allGapFrame : Frame := ⟨[dJan1], [("AAPL", [none])]⟩

/-- One ticker with a +40% single-day move on 2020-01-02. -/
def spikeFrame : Frame := ⟨[dJan1, dJan2], [("AAPL", [some 100, some 140])]⟩

/-! ## Theorems -/

/-- Elements not satisfying `p` survive `List.dropWhile p`. -/
theorem mem_dropWhile_of_neg {α : Type} (p : α → Bool) (l : List α) (c : α)
    (hc : c ∈ l) (hp : p c = false) : c ∈ l.dropWhile p := by
  induction l with
  | nil => cases hc
  | cons a as ih =>
      rw [List.dropWhile_cons]
      by_cases ha : p a = true
      · rw [if_pos ha]
        rcases List.mem_cons.1 hc with rfl | hmem
        · rw [hp] at ha; cases ha
        · exact ih hmem
      · rw [if_neg ha]
        exact hc

/-- Non-whitespace characters survive `str.strip()`. -/
theorem mem_pyStripList_of_not_ws (l : List Char) (c : Char)
    (hc : c ∈ l) (hw : c.isWhitespace = false) : c ∈ pyStripList l := by
  unfold pyStripList
  rw [List.mem_reverse]
  apply mem_dropWhile_of_neg _ _ _ _ hw
  rw [List.mem_reverse]
  exact mem_dropWhile_of_neg _ _ _ hc hw

/-- **C3.** `get_risk_free_rate` never raises to its caller: for every outcome
of the exchange-rate call it is a total function; it returns the `rates.MXN`
entry of the parsed JSON body whenever that entry is present, and returns the
hardcoded default `0.05` on any failure — network error, malformed
(non-object) body, or missing `"rates"`/`"MXN"` key. -/
theorem c3_risk_free_rate_default (resp : Except Unit Json) :
    (∀ fields rates v, resp = .ok (.obj fields) →
        Json.lookupField "rates" fields = some (.obj rates) →
        Json.lookupField "MXN" rates = some v →
        MarketData.get_risk_free_rate resp = v) ∧
    ((¬ ∃ fields rates v, resp = .ok (.obj fields) ∧
        Json.lookupField "rates" fields = some (.obj rates) ∧
        Json.lookupField "MXN" rates = some v) →
      MarketData.get_risk_free_rate resp = .num ratePointZeroFive) := by
  constructor
  · intro fields rates v hresp hrates hmxn
    subst hresp
    simp [MarketData.get_risk_free_rate, hrates, hmxn]
  · intro hno
    match resp with
    | .error _ => rfl
    | .ok data =>
        match data with
        | .null | .bool _ | .num _ | .str _ | .arr _ => rfl
        | .obj fields =>
            cases hr : Json.lookupField "rates" fields with
            | none => simp [MarketData.get_risk_free_rate, hr]
            | some rv =>
                cases rv with
                | obj rates =>
                    cases hm : Json.lookupField "MXN" rates with
                    | none => simp [MarketData.get_risk_free_rate, hr, hm]
                    | some v =>
                        exact absurd ⟨fields, rates, v, rfl, hr, hm⟩ hno
                | null | bool _ | num _ | str _ | arr _ =>
                    simp [MarketData.get_risk_free_rate, hr, MarketData.defaultRate]

/-- Witness for C3: a network failure yields the default `0.05`, and a body
with `rates.MXN = 17` yields `17`. -/
theorem c3_risk_free_rate_default_witness :
    MarketData.get_risk_free_rate (.error ()) = .num ratePointZeroFive ∧
    MarketData.get_risk_free_rate (MarketData.mxnResponse 17) = .num 17 := by
  refine ⟨(c3_risk_free_rate_default (.error ())).2 ?_, ?_⟩
  · rintro ⟨fields, rates, v, h, -, -⟩; cases h
  · exact (c3_risk_free_rate_default (MarketData.mxnResponse 17)).1
      [("rates", .obj [("MXN", .num 17)])] [("MXN", .num 17)] (.num 17) rfl rfl rfl

/-- **C10.** When the exchange-rate response parses and carries a `rates.MXN`
entry, `get_risk_free_rate` returns that entry verbatim, with no range or
sanity check: every numeric value `v` comes back unchanged as the
"risk-free rate", even values (such as a USD-to-MXN exchange rate of 17)
far outside the `[-0.10, 0.50)` range the hardened entry point enforces on
user-supplied rates. -/
theorem c10_rate_returned_verbatim :
    (∀ v : ℚ, MarketData.get_risk_free_rate (MarketData.mxnResponse v) = .num v) ∧
    (¬ riskRateInRange 17 ∧
      MarketData.get_risk_free_rate (MarketData.mxnResponse 17) = .num 17) := by
  exact ⟨fun v => rfl, by decide, rfl⟩

/-- **C1.** The hardened `/optimize` handler accumulates all validation
violations — tickers, investment amount, currency, index, objective and
risk-free rate — into one list (each field's violations are always part of
the final list, regardless of the other fields); when the list is non-empty
the response is the error view with HTTP status 400 and the pipeline is
never invoked; in particular an empty tickers field yields HTTP 400 with an
error list containing "Tickers field is required.". -/
theorem c1_validation_gate (f : MainForm) (pipe : PipelineOutcome) :
    (tickersErrs (f.tickers.getD "") ⊆ validate f) ∧
    (montoErrs f.monto_inversion ⊆ validate f) ∧
    (monedaErrs f.moneda_usuario ⊆ validate f) ∧
    (indiceErrs f.indice ⊆ validate f) ∧
    (objetivoErrs f.objetivo ⊆ validate f) ∧
    (rateErrs f.risk_free_rate ⊆ validate f) ∧
    (validate f ≠ [] →
      mainOptimize f pipe = ⟨.errorPage (errorHtmlList (validate f)), 400, false⟩) ∧
    (pyStrip (f.tickers.getD "") = "" →
      msgTickersRequired ∈ validate f ∧
      mainOptimize f pipe = ⟨.errorPage (errorHtmlList (validate f)), 400, false⟩) := by
  have hsub : ∀ m : String,
      (m ∈ tickersErrs (f.tickers.getD "") ∨ m ∈ montoErrs f.monto_inversion ∨
       m ∈ monedaErrs f.moneda_usuario ∨ m ∈ indiceErrs f.indice ∨
       m ∈ objetivoErrs f.objetivo ∨ m ∈ rateErrs f.risk_free_rate) →
      m ∈ validate f := by
    intro m hm
    simp only [validate, List.mem_append]
    tauto
  have hgate : validate f ≠ [] →
      mainOptimize f pipe = ⟨.errorPage (errorHtmlList (validate f)), 400, false⟩ := by
    intro hne
    unfold mainOptimize
    simp only [List.isEmpty_iff]
    rw [if_neg hne]
  refine ⟨fun m hm => hsub m (Or.inl hm), fun m hm => hsub m (Or.inr (Or.inl hm)),
    fun m hm => hsub m (Or.inr (Or.inr (Or.inl hm))),
    fun m hm => hsub m (Or.inr (Or.inr (Or.inr (Or.inl hm)))),
    fun m hm => hsub m (Or.inr (Or.inr (Or.inr (Or.inr (Or.inl hm))))),
    fun m hm => hsub m (Or.inr (Or.inr (Or.inr (Or.inr (Or.inr hm))))),
    hgate, ?_⟩
  intro hempty
  have hticks : tickersErrs (f.tickers.getD "") = [msgTickersRequired] := by
    unfold tickersErrs
    rw [hempty]
    rfl
  have hmem : msgTickersRequired ∈ validate f := by
    apply hsub
    exact Or.inl (by rw [hticks]; exact List.mem_singleton.2 rfl)
  have hne : validate f ≠ [] := fun h => by rw [h] at hmem; cases hmem
  exact ⟨hmem, hgate hne⟩

/-- Witness for C1: the multiply-invalid `badForm` (and, for the empty-ticker
clause, its empty tickers field) hits the 400 error view without reaching
the pipeline, and each of its six violations is in the list. -/
theorem c1_validation_gate_witness :
    validate badForm ≠ [] ∧
    mainOptimize badForm .ok = ⟨.errorPage (errorHtmlList (validate badForm)), 400, false⟩ ∧
    msgTickersRequired ∈ validate badForm ∧
    validate badForm = [msgTickersRequired, msgMontoPositive, msgMonedaFormat,
      msgIndiceRequired, msgObjetivoRequired, msgRateRange] := by
  have h := c1_validation_gate badForm .ok
  have hstrip : pyStrip ((badForm.tickers).getD "") = "" := by decide
  have h8 := h.2.2.2.2.2.2.2 hstrip
  exact ⟨by decide, h8.2, h8.1, by decide⟩

/-- **C9.** After validation passes, the 400-versus-500 classification is
decided solely by the exception type: a `ValueError` raised anywhere in the
pipeline yields HTTP 400 with the exception's own message in the body, and
any other exception yields HTTP 500 with a fixed generic body that is
independent of the exception's text. -/
theorem c9_exception_classification (f : MainForm) (hval : validate f = []) :
    (∀ m, mainOptimize f (.valueError m) = ⟨.errorPage m, 400, true⟩) ∧
    (∀ m, mainOptimize f (.otherExc m) = ⟨.errorPage genericServerError, 500, true⟩) ∧
    (∀ m m2, mainOptimize f (.otherExc m) = mainOptimize f (.otherExc m2)) := by
  refine ⟨fun m => ?_, fun m => ?_, fun m m2 => ?_⟩ <;>
    · unfold mainOptimize
      rw [hval]
      try rfl

/-- Witness for C9: on the valid `goodForm`, a pipeline `ValueError` with
message "No data" yields a 400 error view carrying that text, while a
`TypeError`-like unexpected exception yields the fixed generic 500 view. -/
theorem c9_exception_classification_witness :
    validate goodForm = [] ∧
    mainOptimize goodForm (.valueError "No data") = ⟨.errorPage "No data", 400, true⟩ ∧
    mainOptimize goodForm (.otherExc "division by zero") =
      ⟨.errorPage genericServerError, 500, true⟩ := by
  have hval : validate goodForm = [] := by decide
  have h := c9_exception_classification goodForm hval
  exact ⟨hval, h.1 "No data", h.2.1 "division by zero"⟩

/-- Counterexample to **C5** as stated: the tickers value `"A1"` is composed
of a letter and a digit, yet validation adds the ticker-format violation —
the regex `^[A-Z,.^ ]+$` of `main.py` line 116 has no digits in its
character class.  On an otherwise-valid form this violation is the whole
error list, so the submission is rejected. -/
theorem c5_digit_rejected_counterexample :
    tickersErrs "A1" = [msgTickersInvalidChars] ∧
    validate digitForm = [msgTickersInvalidChars] := by decide

/-- **C5 (amended).** Digits are not in the accepted ticker character class
`[A-Z,.^ ]`: every tickers form value containing a digit receives the
invalid-characters ticker-format violation (and it is the only tickers
violation added), so such a value never passes the hardened entry point's
ticker validation. -/
theorem c5_digit_rejected (s : String) (hd : ∃ c ∈ s.data, c ∈ digitChars) :
    tickersErrs s = [msgTickersInvalidChars] ∧
    ∀ f : MainForm, f.tickers = some s → msgTickersInvalidChars ∈ validate f := by
  obtain ⟨c, hc, hdig⟩ := hd
  have hfacts : c.isWhitespace = false ∧ c.toUpper = c ∧ tickerCharOk c = false := by
    simp only [digitChars, List.mem_cons, List.not_mem_nil, or_false] at hdig
    rcases hdig with rfl | rfl | rfl | rfl | rfl | rfl | rfl | rfl | rfl | rfl <;>
      exact ⟨by decide, by decide, by decide⟩
  have hmemstrip : c ∈ (pyStrip s).data :=
    mem_pyStripList_of_not_ws s.data c hc hfacts.1
  have hne : pyStrip s ≠ "" := by
    intro h
    rw [h] at hmemstrip
    cases hmemstrip
  have hall : ((pyStrip s).data.map Char.toUpper).all tickerCharOk = false := by
    cases hAll : ((pyStrip s).data.map Char.toUpper).all tickerCharOk
    · rfl
    · exfalso
      have hcu : c ∈ (pyStrip s).data.map Char.toUpper :=
        List.mem_map.2 ⟨c, hmemstrip, hfacts.2.1⟩
      have := List.all_eq_true.1 hAll c hcu
      rw [hfacts.2.2] at this
      cases this
  have hreg : tickersRegexOk (pyStrip s) = false := by
    unfold tickersRegexOk
    simp [hall]
  have hmain : tickersErrs s = [msgTickersInvalidChars] := by
    unfold tickersErrs
    simp only [hreg]
    rw [if_neg hne]
    rfl
  refine ⟨hmain, fun f hf => ?_⟩
  unfold validate
  rw [hf]
  simp only [Option.getD_some, hmain]
  exact List.mem_append_left _ (List.mem_append_left _
    (List.mem_append_left _ (List.mem_append_left _
      (List.mem_append_left _ (List.mem_singleton.2 rfl)))))

/-- Witness for the amended C5, at the digit-carrying value `"A1"`. -/
theorem c5_digit_rejected_witness :
    (∃ c ∈ ("A1" : String).data, c ∈ digitChars) ∧
    tickersErrs "A1" = [msgTickersInvalidChars] ∧
    msgTickersInvalidChars ∈ validate digitForm := by
  refine ⟨by decide, (c5_digit_rejected "A1" (by decide)).1,
    (c5_digit_rejected "A1" (by decide)).2 digitForm rfl⟩

/-- Counterexample to **C8** as stated: the basic entry point does not pass
the currency verbatim — submitting `moneda_usuario = "usd"` reaches the
report call and the results view as `"USD"` (line 55 applies `.upper()`). -/
theorem c8_currency_uppercased_counterexample :
    basicHandlerArgs ⟨some "AAPL", some (some 1000), some "usd", some "S&P 500",
      some "Índice Sharpe"⟩ = some ⟨"USD", "S&P 500", "Índice Sharpe"⟩ ∧
    ("USD" : String) ≠ "usd" := by
  exact ⟨rfl, by decide⟩

/-- **C8 (amended).** The basic entry point passes the submitted index and
objective form values through verbatim to report generation and the results
view, while the currency is uppercased (`.upper()`) before being passed. -/
theorem c8_basic_args_passthrough (f : BasicForm) (t : String) (q : ℚ) (m i o : String)
    (ht : f.tickers = some t) (hq : f.monto_inversion = some (some q))
    (hm : f.moneda_usuario = some m) (hi : f.indice = some i)
    (ho : f.objetivo = some o) :
    basicHandlerArgs f = some ⟨pyUpper m, i, o⟩ := by
  cases f
  simp_all [basicHandlerArgs]

/-- Witness for the amended C8. -/
theorem c8_basic_args_passthrough_witness :
    basicHandlerArgs ⟨some "AAPL", some (some 1000), some "usd", some "S&P 500",
      some "Índice Sharpe"⟩ = some ⟨pyUpper "usd", "S&P 500", "Índice Sharpe"⟩ :=
  c8_basic_args_passthrough _ "AAPL" 1000 "usd" "S&P 500" "Índice Sharpe"
    rfl rfl rfl rfl rfl

/-- The single-ticker branch maps an empty download to an empty result. -/
theorem selectCloseSingle_preserves_empty (s : String) (raw : RawDF)
    (h : raw.isEmpty = true) :
    ∀ d, selectCloseSingle s raw = Except.ok d → d.isEmpty = true := by
  obtain ⟨cols, nrows⟩ := raw
  have h0 : nrows = 0 ∨ RawCols.count cols = 0 := by
    simpa [RawDF.isEmpty] using h
  intro d hd
  cases cols with
  | flat names =>
      unfold selectCloseSingle at hd
      dsimp only at hd
      by_cases hc : names.contains "Close" = true
      · rw [if_pos hc] at hd
        have hnames : names ≠ [] := by
          intro hnil
          rw [hnil] at hc
          cases hc
        have hn0 : nrows = 0 := by
          rcases h0 with h0 | h0
          · exact h0
          · exact absurd (List.length_eq_zero.1 h0) hnames
        by_cases hk : List.count "Close" names = 1
        · rw [if_pos hk] at hd
          cases hd
          simp [RawDF.isEmpty, hn0]
        · rw [if_neg hk] at hd
          cases hd
      · rw [if_neg hc] at hd
        cases hd
        exact h
  | multi pairs =>
      unfold selectCloseSingle at hd
      dsimp only at hd
      by_cases hc : (pairs.map Prod.fst).contains "Close" = true
      · rw [if_pos hc] at hd
        have hpairs : pairs ≠ [] := by
          intro hnil
          rw [hnil] at hc
          cases hc
        have hn0 : nrows = 0 := by
          rcases h0 with h0 | h0
          · exact h0
          · exact absurd (List.length_eq_zero.1 h0) hpairs
        by_cases hk : (pairs.filter (fun p => p.1 = "Close")).length = 1
        · rw [if_pos hk] at hd
          cases hd
          simp [RawDF.isEmpty, hn0]
        · rw [if_neg hk] at hd
          cases hd
      · rw [if_neg hc] at hd
        cases hd
        exact h

/-- The structure-handling body maps an empty download to an empty result
whenever it does not raise. -/
theorem extraer_body_preserves_empty (t : Tickers) (raw : RawDF)
    (h : raw.isEmpty = true) :
    ∀ d, extraer_datos_body t raw = Except.ok d → d.isEmpty = true := by
  intro d hd
  cases t with
  | str s => exact selectCloseSingle_preserves_empty s raw h d hd
  | list l =>
      unfold extraer_datos_body at hd
      dsimp only at hd
      by_cases hlen : 1 < l.length
      · rw [if_pos hlen] at hd
        obtain ⟨cols, nrows⟩ := raw
        have h0 : nrows = 0 ∨ RawCols.count cols = 0 := by
          simpa [RawDF.isEmpty] using h
        cases cols with
        | multi pairs =>
            dsimp only at hd
            by_cases hclose : (List.filter (fun p => decide (p.2 = "Close")) pairs).isEmpty = true
            · rw [if_pos hclose] at hd
              cases hd
              exact h
            · rw [if_neg hclose] at hd
              have hpairs : pairs ≠ [] := by
                intro hnil
                subst hnil
                exact hclose rfl
              have hn0 : nrows = 0 := by
                rcases h0 with h0 | h0
                · exact h0
                · exact absurd (List.length_eq_zero.1 h0) hpairs
              by_cases hk : (levels0 pairs).length =
                  (List.filter (fun p => decide (p.2 = "Close")) pairs).length
              · rw [if_pos hk] at hd
                cases hd
                simp [RawDF.isEmpty, hn0]
              · rw [if_neg hk] at hd
                cases hd
        | flat names =>
            dsimp only at hd
            rw [if_pos h] at hd
            cases hd
            exact h
      · rw [if_neg hlen] at hd
        by_cases h1 : l.length = 1
        · rw [if_pos h1] at hd
          exact selectCloseSingle_preserves_empty _ raw h d hd
        · rw [if_neg h1] at hd
          cases hd
          exact h

/-- **C4.** `extraer_datos` never propagates an exception: for every download
outcome — including the download itself raising — it returns a DataFrame
(the `Except` of the embedded body never escapes the outer handler, which
maps every raised exception to an empty frame).  When no requested ticker
produced any data at all — the download raised, or returned an empty frame,
or none of the requested tickers appears among the returned flat columns —
the result is an empty table rather than an error. -/
theorem c4_extraer_datos_no_raise (tickers : Tickers) (fetch : Except Unit RawDF) :
    (fetch = .error () → extraer_datos tickers fetch = emptyRawDF) ∧
    (noTickerData tickers fetch → (extraer_datos tickers fetch).isEmpty = true) := by
  constructor
  · intro h
    rw [h]
    rfl
  · intro h
    rcases h with h | ⟨raw, hf, hraw⟩ | ⟨l, names, nrows, ht, hlen, hf, hnone⟩
    · rw [h]
      rfl
    · rw [hf]
      unfold extraer_datos
      dsimp only
      cases hb : extraer_datos_body tickers raw with
      | error e => rfl
      | ok d => exact extraer_body_preserves_empty tickers raw hraw d hb
    · subst ht
      rw [hf]
      by_cases hem : RawDF.isEmpty ⟨.flat names, nrows⟩ = true
      · unfold extraer_datos
        dsimp only
        cases hb : extraer_datos_body (.list l) ⟨.flat names, nrows⟩ with
        | error e => rfl
        | ok d => exact extraer_body_preserves_empty _ _ hem d hb
      · have hfetched : List.filter (fun t => names.contains t) l = [] := by
          apply List.filter_eq_nil_iff.2
          intro t ht
          simpa using hnone t ht
        have hbody : extraer_datos_body (.list l) ⟨.flat names, nrows⟩ = .ok emptyRawDF := by
          unfold extraer_datos_body
          dsimp only
          rw [if_pos hlen]
          rw [if_neg hem, hfetched]
          rfl
        unfold extraer_datos
        dsimp only
        rw [hbody]
        rfl

/-- Witness for C4: a download error, and a two-ticker request whose flat
non-empty response holds only an unrelated column, both end in an empty
DataFrame. -/
theorem c4_extraer_datos_no_raise_witness :
    extraer_datos (.list ["AAPL", "MSFT"]) (.error ()) = emptyRawDF ∧
    (noTickerData (.list ["AAPL", "MSFT"]) (.ok ⟨.flat ["GOOG"], 100⟩) ∧
      (extraer_datos (.list ["AAPL", "MSFT"]) (.ok ⟨.flat ["GOOG"], 100⟩)).isEmpty = true) := by
  have hnd : noTickerData (.list ["AAPL", "MSFT"]) (.ok ⟨.flat ["GOOG"], 100⟩) :=
    Or.inr (Or.inr ⟨["AAPL", "MSFT"], ["GOOG"], 100, rfl, by decide, rfl, by decide⟩)
  exact ⟨(c4_extraer_datos_no_raise _ _).1 rfl,
    ⟨hnd, (c4_extraer_datos_no_raise _ _).2 hnd⟩⟩

/-- Selecting in-bounds positions with `get?` keeps one element per position. -/
theorem filterMap_get?_length {α : Type} (l : List α) (idxs : List Nat)
    (h : ∀ i ∈ idxs, i < l.length) :
    (idxs.filterMap (fun i => l.get? i)).length = idxs.length := by
  induction idxs with
  | nil => rfl
  | cons i rest ih =>
      have hi : i < l.length := h i (List.mem_cons_self _ _)
      rw [List.filterMap_cons, List.get?_eq_get hi]
      simp only [List.length_cons]
      rw [ih (fun j hj => h j (List.mem_cons_of_mem _ hj))]

/-- The quality checks return the frame unmodified. -/
theorem perform_checks_fst (df : Frame) : (perform_data_quality_checks df).1 = df := by
  unfold perform_data_quality_checks
  split <;> rfl

/-- **C2.** For every input table with at least one column, `procesar_datos`
removes exactly the rows containing at least one absent value in any column
(the surviving index positions are those whose row is complete); it fails
with the `ValueError` "No valid, complete data rows remaining after
cleaning…" if and only if the input had at least one row and every row was
removed; an absent (`None`) or empty input returns an empty table without
error; and a non-failing result contains no absent values. -/
theorem c2_procesar_datos (f : Frame) (hc : f.cols ≠ []) :
    (procesar_datos none = .ok emptyFrame) ∧
    (f.isEmpty = true → procesar_datos (some f) = .ok emptyFrame) ∧
    (f.isEmpty = false →
      ((∃ e, procesar_datos (some f) = .error e) ↔
        ∀ i < f.dates.length, rowComplete f i = false)) ∧
    (∀ e, procesar_datos (some f) = .error e → e = msgNoValidRows) ∧
    (∀ g, procesar_datos (some f) = .ok g → f.isEmpty = false →
        g.dates = ((List.range f.dates.length).filter (rowComplete f)).filterMap
          (fun i => f.dates.get? i) ∧
        g.cols.map Prod.fst = f.cols.map Prod.fst ∧
        ∀ c ∈ g.cols, ∀ cell ∈ c.2, cell ≠ none) := by
  by_cases hem : f.isEmpty = true
  · refine ⟨rfl, fun _ => ?_, fun hfalse => ?_, fun e he => ?_, fun g hg hfalse => ?_⟩
    · unfold procesar_datos
      dsimp only
      rw [if_pos hem]
    · rw [hem] at hfalse
      cases hfalse
    · unfold procesar_datos at he
      dsimp only at he
      rw [if_pos hem] at he
      cases he
    · rw [hem] at hfalse
      cases hfalse
  · have hem2 : f.isEmpty = false := by
      cases hb : f.isEmpty
      · rfl
      · exact absurd hb hem
    have hdates : f.dates ≠ [] := by
      intro hnil
      apply hem
      simp [Frame.isEmpty, hnil]
    have hlen : 0 < f.dates.length := List.length_pos.2 hdates
    have heq : procesar_datos (some f) =
        if (dropnaAny f).isEmpty = true ∧ 0 < f.dates.length then .error msgNoValidRows
        else .ok (dropnaAny f) := by
      unfold procesar_datos
      dsimp only
      rw [if_neg hem]
      rw [perform_checks_fst]
    have hgood : ∀ i ∈ (List.range f.dates.length).filter (rowComplete f),
        i < f.dates.length := by
      intro i hi
      exact List.mem_range.1 (List.mem_filter.1 hi).1
    have hclen : ((List.range f.dates.length).filter (rowComplete f)).filterMap
        (fun i => f.dates.get? i) = [] ↔
        (List.range f.dates.length).filter (rowComplete f) = [] := by
      constructor
      · intro hnil
        have := filterMap_get?_length f.dates _ hgood
        rw [hnil] at this
        exact List.length_eq_zero.1 this.symm
      · intro hnil
        rw [hnil]
        rfl
    have hcolsne : (dropnaAny f).cols ≠ [] := by
      unfold dropnaAny
      dsimp only
      intro hnil
      rw [List.map_eq_nil] at hnil
      exact hc hnil
    have hempty_iff : (dropnaAny f).isEmpty = true ↔
        (List.range f.dates.length).filter (rowComplete f) = [] := by
      unfold Frame.isEmpty
      rw [Bool.or_eq_true]
      constructor
      · intro h
        rcases h with h | h
        · exact hclen.1 (List.isEmpty_iff.1 h)
        · exact absurd (List.isEmpty_iff.1 h) hcolsne
      · intro h
        exact Or.inl (List.isEmpty_iff.2 (hclen.2 h))
    have hall_iff : (List.range f.dates.length).filter (rowComplete f) = [] ↔
        ∀ i < f.dates.length, rowComplete f i = false := by
      rw [List.filter_eq_nil_iff]
      constructor
      · intro h i hi
        have := h i (List.mem_range.2 hi)
        cases hb : rowComplete f i
        · rfl
        · exact absurd hb this
      · intro h i hi
        rw [h i (List.mem_range.1 hi)]
        exact Bool.false_ne_true
    refine ⟨rfl, fun ht => absurd ht hem, fun _ => ?_, fun e he => ?_, fun g hg _ => ?_⟩
    · rw [heq]
      by_cases hcond : (dropnaAny f).isEmpty = true ∧ 0 < f.dates.length
      · rw [if_pos hcond]
        constructor
        · intro _
          exact hall_iff.1 (hempty_iff.1 hcond.1)
        · intro _
          exact ⟨msgNoValidRows, rfl⟩
      · rw [if_neg hcond]
        constructor
        · rintro ⟨e, he⟩
          cases he
        · intro hall
          exact absurd ⟨hempty_iff.2 (hall_iff.2 hall), hlen⟩ hcond
    · rw [heq] at he
      by_cases hcond : (dropnaAny f).isEmpty = true ∧ 0 < f.dates.length
      · rw [if_pos hcond] at he
        cases he
        rfl
      · rw [if_neg hcond] at he
        cases he
    · rw [heq] at hg
      by_cases hcond : (dropnaAny f).isEmpty = true ∧ 0 < f.dates.length
      · rw [if_pos hcond] at hg
        cases hg
      · rw [if_neg hcond] at hg
        cases hg
        refine ⟨rfl, ?_, ?_⟩
        · unfold dropnaAny
          simp
        · intro c hcmem cell hcell
          unfold dropnaAny at hcmem
          simp only [List.mem_map] at hcmem
          obtain ⟨⟨name, cells⟩, hfmem, hceq⟩ := hcmem
          subst hceq
          simp only [List.mem_filterMap] at hcell
          obtain ⟨i, hi, hgeti⟩ := hcell
          have hrc : rowComplete f i = true := (List.mem_filter.1 hi).2
          have hsome : (cells.getD i none).isSome = true :=
            List.all_eq_true.1 hrc ⟨name, cells⟩ hfmem
          rw [List.getD_eq_get?, hgeti] at hsome
          intro hnone
          rw [hnone] at hsome
          cases hsome

/-- Witness for C2: a frame whose only row has a gap fails with the
`DataUnavailable` message, while a frame with one complete and one gapped
row keeps exactly the complete row, with no absent values left. -/
theorem c2_procesar_datos_witness :
    (∃ e, procesar_datos (some allGapFrame) = .error e) ∧
    (∀ e, procesar_datos (some allGapFrame) = .error e → e = msgNoValidRows) ∧
    (procesar_datos (some gapFrame) =
      .ok ⟨[dJan1], [("AAPL", [some 1]), ("MSFT", [some 2])]⟩) ∧
    (∀ c ∈ (Frame.mk [dJan1] [("AAPL", [some 1]), ("MSFT", [some 2])]).cols,
      ∀ cell ∈ c.2, cell ≠ none) := by
  have hfail := (c2_procesar_datos allGapFrame (by decide)).2.2.1 (by decide)
  have hok : procesar_datos (some gapFrame) =
      .ok ⟨[dJan1], [("AAPL", [some 1]), ("MSFT", [some 2])]⟩ := by rfl
  have hclean := (c2_procesar_datos gapFrame (by decide)).2.2.2.2 _ hok (by decide)
  exact ⟨hfail.2 (by decide), (c2_procesar_datos allGapFrame (by decide)).2.2.2.1,
    hok, hclean.2.2⟩

/-- `filterMap` with an if-guard is `map` over `filter`. -/
theorem filterMap_guard_eq_map_filter {α β : Type} (l : List α) (p : α → Bool) (g : α → β) :
    l.filterMap (fun a => if p a then none else some (g a)) =
      (l.filter (fun a => !(p a))).map g := by
  induction l with
  | nil => rfl
  | cons a rest ih =>
      by_cases ha : p a = true <;>
        simp [List.filterMap_cons, List.filter_cons, ha, ih]

/-- **C6.** For every price table, the outlier check of `quality_check` emits
exactly one issue per column having at least one day-over-day percentage
change of absolute value strictly greater than 30% — the issue list is
precisely the offending columns mapped to their messages, so it has one
entry per offending column and none for the others — and the message names
the ticker, the threshold rendered as "30%", the first at most 5 offending
dates formatted YYYY-MM-DD, with "..." appended exactly when more than 5
offending dates exist. -/
theorem c6_outlier_issue_per_ticker (f : Frame) :
    (check2Issues f =
      (f.cols.filter (fun c => !(colLargeChanges f.dates c.2).isEmpty)).map
        (fun c => outlierMsg c.1 ((colLargeChanges f.dates c.2).map Date.fmt))) ∧
    ((check2Issues f).length =
      (f.cols.filter (fun c => !(colLargeChanges f.dates c.2).isEmpty)).length) ∧
    (∀ name cells, (name, cells) ∈ f.cols → colLargeChanges f.dates cells ≠ [] →
      outlierMsg name ((colLargeChanges f.dates cells).map Date.fmt) ∈ check2Issues f) ∧
    (∀ dates cells, colLargeChanges dates cells ≠ [] ↔
      ∃ p ∈ dates.zip (pctChange cells), ∃ v, p.2 = some v ∧ threshold30 < |v|) ∧
    (∀ name ds, outlierMsg name ds =
      "Data Quality Warning: Ticker \x27" ++ name ++
        "\x27 has large daily changes (> 30%) on dates: " ++
        pyReprStrList (ds.take 5) ++ (if 5 < ds.length then "..." else "")) := by
  have hchar : check2Issues f =
      (f.cols.filter (fun c => !(colLargeChanges f.dates c.2).isEmpty)).map
        (fun c => outlierMsg c.1 ((colLargeChanges f.dates c.2).map Date.fmt)) := by
    unfold check2Issues
    dsimp only
    by_cases hall : (f.cols.map (fun c => (c.1, colLargeChanges f.dates c.2))).all
        (fun c => c.2.isEmpty) = true
    · rw [if_pos hall]
      have hnil : f.cols.filter (fun c => !(colLargeChanges f.dates c.2).isEmpty) = [] := by
        apply List.filter_eq_nil_iff.2
        intro c hc
        have := List.all_eq_true.1 hall (c.1, colLargeChanges f.dates c.2)
          (List.mem_map.2 ⟨c, hc, rfl⟩)
        simp only [Bool.not_eq_true]
        simpa using this
      rw [hnil]
      rfl
    · rw [if_neg hall]
      rw [List.filterMap_map]
      exact filterMap_guard_eq_map_filter f.cols
        (fun c => (colLargeChanges f.dates c.2).isEmpty)
        (fun c => outlierMsg c.1 ((colLargeChanges f.dates c.2).map Date.fmt))
  refine ⟨hchar, by rw [hchar]; exact List.length_map _ _, ?_, ?_, fun name ds => rfl⟩
  · intro name cells hmem hne
    rw [hchar]
    apply List.mem_map.2
    refine ⟨(name, cells), List.mem_filter.2 ⟨hmem, ?_⟩, rfl⟩
    simp only [Bool.not_eq_eq_eq_not, Bool.not_true]
    cases hb : (colLargeChanges f.dates cells).isEmpty
    · rfl
    · exact absurd (List.isEmpty_iff.1 hb) hne
  · intro dates cells
    rw [Ne, colLargeChanges, List.filterMap_eq_nil_iff]
    constructor
    · intro h
      by_contra hno
      apply h
      intro dc hdc
      cases hcell : dc.2 with
      | none => simp [largeChangeCell, hcell]
      | some v =>
          by_cases hv : threshold30 < |v|
          · exact absurd (⟨dc, hdc, v, hcell, hv⟩ :
              ∃ p ∈ dates.zip (pctChange cells), ∃ v, p.2 = some v ∧ threshold30 < |v|) hno
          · simp [largeChangeCell, hcell, hv]
    · rintro ⟨dc, hdc, v, hv, hthr⟩ hforall
      have := hforall dc hdc
      rw [hv] at this
      simp only [largeChangeCell] at this
      rw [if_pos hthr] at this
      cases this

/-- Witness for C6: the table with a single +40% move on 2020-01-02 has a
non-empty offending-date list for its only column, its message is in the
issue list, and the full issue list is exactly one message naming that
date. -/
theorem c6_outlier_issue_per_ticker_witness :
    (("AAPL", [some 100, some 140]) ∈ spikeFrame.cols ∧
      colLargeChanges spikeFrame.dates [some 100, some 140] ≠ [] ∧
      outlierMsg "AAPL"
          ((colLargeChanges spikeFrame.dates [some 100, some 140]).map Date.fmt) ∈
        check2Issues spikeFrame) ∧
    check2Issues spikeFrame =
      ["Data Quality Warning: Ticker \x27AAPL\x27 has large daily changes (> 30%) on dates: [\x272020-01-02\x27]"] := by
  have hmem : ("AAPL", [some 100, some 140]) ∈ spikeFrame.cols := by decide
  have hne : colLargeChanges spikeFrame.dates [some 100, some 140] ≠ [] := by
    with_unfolding_all decide
  exact ⟨⟨hmem, hne,
      (c6_outlier_issue_per_ticker spikeFrame).2.2.1 "AAPL" _ hmem hne⟩,
    by with_unfolding_all decide⟩

/-- Splitting a filter count over a disjunction of predicates. -/
theorem length_filter_or {α : Type} (l : List α) (a b : α → Bool) :
    (l.filter (fun x => a x || b x)).length =
      (l.filter a).length + (l.filter (fun x => b x && !(a x))).length := by
  induction l with
  | nil => rfl
  | cons x rest ih =>
      by_cases hx : a x = true <;> by_cases hbx : b x = true <;>
        simp [List.filter_cons, hx, hbx, ih] <;> omega

theorem bool_demorgan_combine : ∀ a b c : Bool,
    ((!(b && !c)) && (!(a && !c))) = !((a || b) && !c) := by decide

theorem bool_or_distrib_right : ∀ a b c : Bool,
    ((a || b) && !c) = ((a && !c) || (b && !c)) := by decide

/-- The inner deletion loop of `cleanup_static_files` (lines 58–64): with a
duplicate-free folder, a failed deletion is skipped without aborting the
rest of the batch; the other listed files are removed and counted. -/
theorem removeBatch_spec (fails : String → Bool) :
    ∀ (l st : List String) (c : Nat), l.Nodup → st.Nodup → (∀ g ∈ l, g ∈ st) →
      removeBatch fails l (st, c) =
        (st.filter (fun g => !(decide (g ∈ l) && !(fails g))),
         c + (l.filter (fun g => !(fails g))).length) := by
  intro l
  induction l with
  | nil =>
      intro st c _ _ _
      simp [removeBatch]
  | cons f rest ih =>
      intro st c hnd hstnd hsub
      have hfst : f ∈ st := hsub f (List.mem_cons_self _ _)
      have hrestnd : rest.Nodup := hnd.of_cons
      have hfnotrest : f ∉ rest := (List.nodup_cons.1 hnd).1
      by_cases hf : fails f = true
      · have hstep : removeBatch fails (f :: rest) (st, c) = removeBatch fails rest (st, c) := by
          simp only [removeBatch]
          rw [if_pos hf]
        rw [hstep, ih st c hrestnd hstnd (fun g hg => hsub g (List.mem_cons_of_mem _ hg))]
        have hfilter : st.filter (fun g => !(decide (g ∈ rest) && !(fails g)))
            = st.filter (fun g => !(decide (g ∈ f :: rest) && !(fails g))) := by
          apply List.filter_congr
          intro g hg
          by_cases hgf : g = f
          · subst hgf
            rw [hf]
            simp
          · simp [List.mem_cons, hgf]
        have hcount : List.filter (fun g => !(fails g)) (f :: rest)
            = List.filter (fun g => !(fails g)) rest := by
          simp [List.filter_cons, hf]
        rw [hfilter, hcount]
      · have hff : fails f = false := by
          cases hb : fails f
          · rfl
          · exact absurd hb hf
        have hstep : removeBatch fails (f :: rest) (st, c)
            = removeBatch fails rest (st.erase f, c + 1) := by
          simp only [removeBatch]
          rw [if_neg hf]
        have hstnd2 : (st.erase f).Nodup := hstnd.erase f
        have hsub2 : ∀ g ∈ rest, g ∈ st.erase f := by
          intro g hg
          have hgf : g ≠ f := fun h => hfnotrest (h ▸ hg)
          exact (List.mem_erase_of_ne hgf).2 (hsub g (List.mem_cons_of_mem _ hg))
        rw [hstep, ih (st.erase f) (c + 1) hrestnd hstnd2 hsub2]
        have herase : st.erase f = st.filter (· != f) := hstnd.erase_eq_filter f
        have hfilter : (st.filter (· != f)).filter (fun g => !(decide (g ∈ rest) && !(fails g)))
            = st.filter (fun g => !(decide (g ∈ f :: rest) && !(fails g))) := by
          rw [List.filter_filter]
          apply List.filter_congr
          intro g hg
          by_cases hgf : g = f
          · subst hgf
            simp [hff]
          · simp [List.mem_cons, hgf]
        have hcount : (List.filter (fun g => !(fails g)) (f :: rest)).length
            = (List.filter (fun g => !(fails g)) rest).length + 1 := by
          simp [List.filter_cons, hff]
        rw [herase, hfilter, hcount]
        refine congrArg (Prod.mk _) ?_
        omega

/-- One pattern pass of `cleanup_static_files` (lines 47–64), guard included. -/
theorem cleanup_step_spec (fails : String → Bool) (pat : String) (st : List String) (c : Nat)
    (hnd : st.Nodup) :
    (if (st.filter (globMatches pat)).isEmpty then (st, c)
     else removeBatch fails (st.filter (globMatches pat)) (st, c)) =
      (st.filter (fun g => !(globMatches pat g && !(fails g))),
       c + (st.filter (fun g => globMatches pat g && !(fails g))).length) := by
  by_cases hempty : (st.filter (globMatches pat)).isEmpty = true
  · rw [if_pos hempty]
    have hnil : st.filter (globMatches pat) = [] := List.isEmpty_iff.1 hempty
    have hnomatch : ∀ g ∈ st, globMatches pat g = false := by
      intro g hg
      have := List.filter_eq_nil_iff.1 hnil g hg
      cases hb : globMatches pat g
      · rfl
      · exact absurd hb this
    have h1 : st.filter (fun g => !(globMatches pat g && !(fails g))) = st := by
      apply List.filter_eq_self.2
      intro g hg
      simp [hnomatch g hg]
    have h2 : st.filter (fun g => globMatches pat g && !(fails g)) = [] := by
      apply List.filter_eq_nil_iff.2
      intro g hg
      simp [hnomatch g hg]
    rw [h1, h2]
    rfl
  · rw [if_neg hempty]
    rw [removeBatch_spec fails (st.filter (globMatches pat)) st c
      (hnd.filter _) hnd (fun g hg => (List.mem_filter.1 hg).1)]
    have hfilter : st.filter (fun g => !(decide (g ∈ st.filter (globMatches pat)) && !(fails g)))
        = st.filter (fun g => !(globMatches pat g && !(fails g))) := by
      apply List.filter_congr
      intro g hg
      have hdec : decide (g ∈ st.filter (globMatches pat)) = globMatches pat g := by
        by_cases hm : globMatches pat g = true
        · simp [List.mem_filter, hg, hm]
        · simp [List.mem_filter, hm]
      rw [hdec]
    have hcount : (st.filter (globMatches pat)).filter (fun g => !(fails g))
        = st.filter (fun g => globMatches pat g && !(fails g)) := by
      rw [List.filter_filter]
      apply List.filter_congr
      intro g hg
      exact Bool.and_comm _ _
    rw [hfilter, hcount]

/-- The whole pattern fold of `cleanup_static_files`, characterized. -/
theorem cleanup_foldl_spec (fails : String → Bool) :
    ∀ (patterns st : List String) (c : Nat), st.Nodup →
      (patterns.foldl (fun st2 pat =>
        let files_to_delete := st2.1.filter (globMatches pat)
        if files_to_delete.isEmpty then st2
        else removeBatch fails files_to_delete st2) (st, c)) =
      (st.filter (fun g => !(deletable patterns fails g)),
       c + (st.filter (deletable patterns fails)).length) := by
  intro patterns
  induction patterns with
  | nil =>
      intro st c _
      simp [deletable, matchesAnyPattern]
  | cons p rest ih =>
      intro st c hnd
      rw [List.foldl_cons]
      have hstep := cleanup_step_spec fails p st c hnd
      dsimp only at hstep ⊢
      rw [hstep, ih (st.filter (fun g => !(globMatches p g && !(fails g)))) _ (hnd.filter _)]
      have hfilter : (st.filter (fun g => !(globMatches p g && !(fails g)))).filter
            (fun g => !(deletable rest fails g))
          = st.filter (fun g => !(deletable (p :: rest) fails g)) := by
        rw [List.filter_filter]
        apply List.filter_congr
        intro g hg
        simp only [deletable, matchesAnyPattern, List.any_cons]
        exact bool_demorgan_combine (globMatches p g) (rest.any (fun q => globMatches q g)) (fails g)
      have hcount : (st.filter (fun g => globMatches p g && !(fails g))).length +
            ((st.filter (fun g => !(globMatches p g && !(fails g)))).filter
              (deletable rest fails)).length
          = (st.filter (deletable (p :: rest) fails)).length := by
        have hsplit : st.filter (deletable (p :: rest) fails)
            = st.filter (fun g => (globMatches p g && !(fails g)) || deletable rest fails g) := by
          apply List.filter_congr
          intro g hg
          simp only [deletable, matchesAnyPattern, List.any_cons]
          exact bool_or_distrib_right (globMatches p g) (rest.any (fun q => globMatches q g)) (fails g)
        have hinner : (st.filter (fun g => !(globMatches p g && !(fails g)))).filter
              (deletable rest fails)
            = st.filter (fun g => deletable rest fails g && !(globMatches p g && !(fails g))) := by
          rw [List.filter_filter]
        rw [hsplit, hinner, length_filter_or]
      rw [hfilter]
      rw [← hcount]
      refine congrArg (Prod.mk _) ?_
      omega

/-- **C7.** `cleanup_static_files` never raises: on every duplicate-free
directory state it completes normally, deleting exactly the pattern-matched
files whose deletion does not fail and counting them; a deletion error on
one file is skipped without aborting the remaining deletions; and with no
matching files it deletes zero files — also when run twice in a row. -/
theorem c7_cleanup_never_raises (folder patterns : List String) (fails : String → Bool)
    (hnd : folder.Nodup) :
    (cleanup_static_files folder patterns fails =
      (folder.filter (fun f => !(deletable patterns fails f)),
       (folder.filter (deletable patterns fails)).length)) ∧
    ((∀ f ∈ folder, matchesAnyPattern patterns f = false) →
      cleanup_static_files folder patterns fails = (folder, 0) ∧
      cleanup_static_files (cleanup_static_files folder patterns fails).1 patterns fails
        = (folder, 0)) := by
  have hmain : cleanup_static_files folder patterns fails =
      (folder.filter (fun f => !(deletable patterns fails f)),
       (folder.filter (deletable patterns fails)).length) := by
    unfold cleanup_static_files
    rw [cleanup_foldl_spec fails patterns folder 0 hnd]
    rw [Nat.zero_add]
  refine ⟨hmain, fun hno => ?_⟩
  have hdel : ∀ f ∈ folder, deletable patterns fails f = false := by
    intro f hf
    simp [deletable, hno f hf]
  have h1 : folder.filter (fun f => !(deletable patterns fails f)) = folder := by
    apply List.filter_eq_self.2
    intro f hf
    simp [hdel f hf]
  have h2 : folder.filter (deletable patterns fails) = [] :=
    List.filter_eq_nil_iff.2 (fun f hf => by simp [hdel f hf])
  have hfirst : cleanup_static_files folder patterns fails = (folder, 0) := by
    rw [hmain, h1, h2]
    rfl
  refine ⟨hfirst, ?_⟩
  rw [hfirst]
  exact hfirst

/-- Witness for C7: on a folder holding an old report, an old plot, an
unrelated file and a report whose deletion fails, cleanup deletes exactly
the two deletable matches, keeps the failing file and the unrelated file,
and reports 2 deletions; on a folder with no matching files, running it
twice deletes nothing both times. -/
theorem c7_cleanup_never_raises_witness :
    cleanup_static_files
        ["reporte_old.pdf", "growth_plot_old.png", "keep.txt", "reporte_locked.pdf"]
        ["reporte_*.pdf", "growth_plot_*.png"]
        (fun f => f == "reporte_locked.pdf")
      = (["keep.txt", "reporte_locked.pdf"], 2) ∧
    (∀ f ∈ ["keep.txt"], matchesAnyPattern ["reporte_*.pdf", "growth_plot_*.png"] f = false) ∧
    cleanup_static_files ["keep.txt"] ["reporte_*.pdf", "growth_plot_*.png"]
        (fun f => f == "reporte_locked.pdf") = (["keep.txt"], 0) ∧
    cleanup_static_files
        (cleanup_static_files ["keep.txt"] ["reporte_*.pdf", "growth_plot_*.png"]
          (fun f => f == "reporte_locked.pdf")).1
        ["reporte_*.pdf", "growth_plot_*.png"]
        (fun f => f == "reporte_locked.pdf") = (["keep.txt"], 0) := by
  have h1 := (c7_cleanup_never_raises
    ["reporte_old.pdf", "growth_plot_old.png", "keep.txt", "reporte_locked.pdf"]
    ["reporte_*.pdf", "growth_plot_*.png"]
    (fun f => f == "reporte_locked.pdf") (by decide)).1
  have hno : ∀ f ∈ ["keep.txt"],
      matchesAnyPattern ["reporte_*.pdf", "growth_plot_*.png"] f = false := by decide
  have h2 := (c7_cleanup_never_raises ["keep.txt"] ["reporte_*.pdf", "growth_plot_*.png"]
    (fun f => f == "reporte_locked.pdf") (by decide)).2 hno
  exact ⟨h1.trans (by decide), hno, h2.1, h2.2⟩
